import Mathlib

/-!
# Verification of the TurtleProject retrieval core

A shallow embedding, in Lean 4, of the content-based image-retrieval engine
of the TurtleProject repository (`backend/vlad_utils.py`,
`backend/turtles/search_utils.py`, `backend/image_processing.py`,
`backend/turtles/image_processing.py`, `backend/turtle_manager.py`),
together with theorems settling the stated properties of that code.

Conventions of the embedding:

* A descriptor / centroid / encoded vector of dimension `D` is a function
  `Fin D → ℚ`.  All arithmetic the Python code performs with numpy over
  float arrays before the VLAD power/normalization steps (differences,
  sums, squared distances, comparisons) is exact rational arithmetic here;
  the signed square root and the final L2 normalization of `compute_vlad`
  are modelled over `ℝ`.
* FAISS with `METRIC_L2` (both `IndexHNSWFlat` and `IndexFlatL2`) returns
  **squared** L2 distances, not L2 distances; the search models below
  therefore return squared distances, and every threshold comparison in
  the embedded code (`< 1e-9` in `add_new_turtle_image_to_index`,
  `< 1e-6` in `filtered_faiss_search`) is a comparison on squared
  distances, exactly as the running code performs it.
* The HNSW index is modelled as an exact nearest-neighbor structure over
  the list of stored vectors (approximation error of the graph search is
  not modelled); ties are broken towards the smaller insertion position,
  and a search that asks for more neighbors than the index holds simply
  returns all of them (the running code skips FAISS's `-1` padding
  entries, which comes to the same thing).
-/

/-- A fixed-width numeric vector (one descriptor, one centroid, or one
row of the flattened VLAD matrix), with exact rational entries. -/
def Vec (D : ℕ) : Type := Fin D → ℚ

/-- Squared L2 distance between two vectors — the quantity FAISS reports
for `METRIC_L2` and the quantity `kmeans.predict` minimizes. -/
def sqDist {D : ℕ} (x y : Vec D) : ℚ :=
  ∑ j : Fin D, (x j - y j) ^ 2

/-- `kmeans.predict` for a single descriptor: the index of the nearest
centroid in (squared) L2 distance, ties broken towards the smaller
index (numpy `argmin` behavior). -/
def assign {K D : ℕ} [NeZero K] (centers : Fin K → Vec D) (x : Vec D) : Fin K :=
  ((List.finRange K).argmin (fun i => sqDist x (centers i))).getD
    ⟨0, Nat.pos_of_ne_zero (NeZero.ne K)⟩

/-- The residual-aggregation loop of `compute_vlad`
(`backend/vlad_utils.py` lines 10–19): row `i` of the `vlad` matrix is the
sum of the residuals `x - centers i` over the descriptors assigned to
centroid `i`.  A centroid with no assigned descriptors keeps its all-zero
row (`continue` in the source; the empty sum here). -/
def vladRaw {K D : ℕ} [NeZero K] (centers : Fin K → Vec D)
    (descriptors : List (Vec D)) : Fin K → Fin D → ℚ :=
  fun i j =>
    ((descriptors.filter (fun x => assign centers x = i)).map
      (fun x => x j - centers i j)).sum

/-- `np.sign(x) * np.sqrt(np.abs(x))` — the signed square-root ("power")
normalization applied elementwise in `compute_vlad` line 22. -/
noncomputable def signedSqrt (x : ℝ) : ℝ := Real.sign x * Real.sqrt |x|

/-- The flattened VLAD matrix after the power normalization
(`compute_vlad` lines 21–22); flattening is kept as two-dimensional
indexing, which changes nothing about norms. -/
noncomputable def vladPower {K D : ℕ} [NeZero K] (centers : Fin K → Vec D)
    (descriptors : List (Vec D)) : Fin K → Fin D → ℝ :=
  fun i j => signedSqrt ((vladRaw centers descriptors i j : ℚ) : ℝ)

/-- `np.linalg.norm` of a `K × D` matrix viewed as one flat vector: the
square root of the sum of the squares of all entries. -/
noncomputable def euclNormVlad {K D : ℕ} (v : Fin K → Fin D → ℝ) : ℝ :=
  Real.sqrt (∑ i : Fin K, ∑ j : Fin D, (v i j) ^ 2)

/-- `compute_vlad` (`backend/vlad_utils.py` lines 7–24): aggregate
residuals against the codebook, apply the signed square root elementwise,
then divide the whole vector by its L2 norm.  The final division is
unguarded in the source (line 23); in this real-valued model a division
by a zero norm yields `0` where IEEE arithmetic yields `NaN`. -/
noncomputable def compute_vlad {K D : ℕ} [NeZero K] (centers : Fin K → Vec D)
    (descriptors : List (Vec D)) : Fin K → Fin D → ℝ :=
  fun i j => vladPower centers descriptors i j /
    euclNormVlad (vladPower centers descriptors)

/-- Pair each stored vector with its insertion position, starting at `n`
(the index positions FAISS reports for its entries). -/
def enumIdx {α : Type} : List α → ℕ → List (ℕ × α)
  | [], _ => []
  | a :: as, n => (n, a) :: enumIdx as (n + 1)

/-- `faiss_search_k_neighbors(index, q, k=1)`: the `(position, squared
distance)` of the nearest stored vector, `none` on an empty index
(FAISS pads with `-1` positions and huge distances there, which the
callers treat the same way).  The strict `<` in the fold keeps the first
minimizer, i.e. ties go to the smaller position. -/
def searchK1 {D : ℕ} (db : List (Vec D)) (q : Vec D) : Option (ℕ × ℚ) :=
  (enumIdx db 0).foldl
    (fun best p =>
      match best with
      | none => some (p.1, sqDist q p.2)
      | some b => if sqDist q p.2 < b.2 then some (p.1, sqDist q p.2) else some b)
    none

/-- `add_new_turtle_image_to_index`
(`backend/turtles/search_utils.py` lines 36–57): run a `k=1` search
against the live index; if the nearest squared distance is below `1e-9`
report a duplicate (`False`) and leave the index alone, otherwise append
the vector.  Returns the flag the Python function returns together with
the updated index. -/
def add_new_turtle_image_to_index {D : ℕ} (db : List (Vec D)) (v : Vec D) :
    Bool × List (Vec D) :=
  match searchK1 db v with
  | some h => if h.2 < 1 / 1000000000 then (false, db) else (true, db ++ [v])
  | none => (true, db ++ [v])

/-- Neighbor ordering used to model a FAISS k-NN result list: ascending
squared distance, ties broken towards the smaller index position. -/
def hitLE (a b : ℕ × ℚ) : Prop := a.2 < b.2 ∨ (a.2 = b.2 ∧ a.1 ≤ b.1)

instance : DecidableRel hitLE := fun a b => by
  unfold hitLE; infer_instance

instance : IsTotal (ℕ × ℚ) hitLE := by
  constructor
  intro a b
  rcases lt_trichotomy a.2 b.2 with h | h | h
  · exact Or.inl (Or.inl h)
  · rcases Nat.le_total a.1 b.1 with h1 | h1
    · exact Or.inl (Or.inr ⟨h, h1⟩)
    · exact Or.inr (Or.inr ⟨h.symm, h1⟩)
  · exact Or.inr (Or.inl h)

instance : IsTrans (ℕ × ℚ) hitLE := by
  constructor
  rintro a b c (hab | ⟨hab, hab1⟩) (hbc | ⟨hbc, hbc1⟩)
  · exact Or.inl (hab.trans hbc)
  · exact Or.inl (hbc ▸ hab)
  · exact Or.inl (hab ▸ hbc)
  · exact Or.inr ⟨hab.trans hbc, hab1.trans hbc1⟩

/-- `index.search(query, k)` on a FAISS `METRIC_L2` index, modelled as
the exact answer: all stored `(position, squared distance)` pairs in
ascending distance order, truncated to `k`.  (FAISS additionally pads
with `-1` positions when `k` exceeds the index size; the caller loop
skips those, so they are simply absent here.) -/
def searchTopK {D : ℕ} (db : List (Vec D)) (q : Vec D) (k : ℕ) : List (ℕ × ℚ) :=
  (((enumIdx db 0).map (fun p => (p.1, sqDist q p.2))).insertionSort hitLE).take k

/-- One record of the parallel metadata array (`metadata.pkl`): the
fields `smart_search` and the registration flows read and write.
A record built without a location key is modelled with the string the
readers substitute via `meta.get('location', 'Unknown')`. -/
structure MetaRec where
  filename : String
  site_id : ℤ
  location : String
  original_index : ℕ
deriving DecidableEq, Inhabited

/-- One entry of the list `smart_search` returns in global (diversity)
mode (`backend/image_processing.py` lines 140–145). -/
structure ResultRec where
  filename : String
  site_id : ℤ
  distance : ℚ
  location : String
deriving DecidableEq

/-- The deduplication loop of `smart_search`'s global mode
(`backend/image_processing.py` lines 129–147): scan the neighbor list in
order, skip positions outside the metadata array, keep the first hit of
each `site_id`, and break as soon as `k_results` results are collected
(the break test runs after each non-skipped iteration, exactly as in the
source).  `seen` and `count` carry the loop state `seen_sites` and
`len(unique_results)`. -/
def collectUnique (metadata : List MetaRec) (kResults : ℕ) :
    List (ℕ × ℚ) → List ℤ → ℕ → List ResultRec
  | [], _, _ => []
  | (idx, dist) :: rest, seen, count =>
    if h : idx < metadata.length then
      let meta := metadata.get ⟨idx, h⟩
      if meta.site_id ∈ seen then
        if kResults ≤ count then [] else collectUnique metadata kResults rest seen count
      else
        let r : ResultRec :=
          { filename := meta.filename, site_id := meta.site_id,
            distance := dist, location := meta.location }
        if kResults ≤ count + 1 then [r]
        else r :: collectUnique metadata kResults rest (meta.site_id :: seen) (count + 1)
    else collectUnique metadata kResults rest seen count

/-- `smart_search` in global diversity mode
(`backend/image_processing.py` lines 123–148): oversample the index by a
factor of 10, then deduplicate by `site_id`. -/
def smart_search_global {D : ℕ} (db : List (Vec D)) (metadata : List MetaRec)
    (q : Vec D) (kResults : ℕ) : List ResultRec :=
  collectUnique metadata kResults (searchTopK db q (kResults * 10)) [] 0

/-- `filtered_faiss_search` (`backend/turtles/search_utils.py` lines
83–100): brute-force search over the caller-supplied subset
(`IndexFlatL2`, hence squared distances), then drop every hit whose
squared distance is below `1e-6` ("filter query itself if present") and
map subset positions back to global positions. -/
def filtered_faiss_search {D : ℕ} (q : Vec D) (subsetVectors : List (Vec D))
    (subsetIndices : List ℕ) (nResults : ℕ) : List ℕ × List ℚ :=
  if subsetVectors.isEmpty then ([], [])
  else
    let kept := (searchTopK subsetVectors q nResults).filter (fun p => !(p.2 < 1 / 1000000 : Bool))
    (kept.map (fun p => subsetIndices.getD p.1 0), kept.map (fun p => p.2))

/-- Site-id generation of `register_new_site_from_upload`
(`backend/image_processing.py` lines 201–202):
`max(existing_ids) + 1 if existing_ids else 1`. -/
def newSiteId (metadata : List MetaRec) : ℤ :=
  match metadata.map (fun m => m.site_id) with
  | [] => 1
  | x :: xs => xs.foldl max x + 1

/-- The index/metadata mutation of `register_new_site_from_upload`
(`backend/image_processing.py` lines 232–250, steps 4–6; the filesystem
steps are I/O and not modelled).  `vlad` is the encoded vector of the
uploaded image.  The source discards the Boolean result of
`add_new_turtle_image_to_index` and appends the metadata record
unconditionally, with `original_index = faiss_index.ntotal - 1`. -/
def register_new_site_from_upload {D : ℕ} (db : List (Vec D))
    (metadata : List MetaRec) (vlad : Vec D) (filename location : String) :
    List (Vec D) × List MetaRec :=
  let newId := newSiteId metadata
  let db2 := (add_new_turtle_image_to_index db vlad).2
  let newEntry : MetaRec :=
    { filename := filename, site_id := newId,
      location := location, original_index := db2.length - 1 }
  (db2, metadata ++ [newEntry])

/-- One entry of the list `rerank_results_with_spatial_verification`
returns and `search_for_matches` consumes: the candidate dictionary with
the optional `spatial_score` key (`.get('spatial_score', 0)` reads it)
and the `is_mirrored` flag the mirror pass sets. -/
structure VerifiedResult where
  site_id : ℤ
  spatial_score : Option ℕ
  is_mirrored : Bool
deriving DecidableEq

/-- `results[0].get('spatial_score', 0)` guarded by `if results:`
(`backend/turtle_manager.py` lines 322–324 and 350–352): the top score of
a (reranked) result list, `0` for the empty list or a missing key. -/
def headScore : List VerifiedResult → ℕ
  | [] => 0
  | r :: _ => r.spatial_score.getD 0

/-- `TurtleManager.search_for_matches`
(`backend/turtle_manager.py` lines 300–370).  The retrieval + rerank
stages enter as parameters: `resultsNormal` is the reranked result list
of the normal-orientation pass, `mirrorReadable` tells whether the query
re-read for mirroring succeeded (`cv.imread` not `None`), and
`resultsMirror` is the reranked result list the mirror pass would
produce.  The Boolean output records whether the mirror pipeline
(mirrored search + verification) was invoked at all. -/
def search_for_matches (resultsNormal : List VerifiedResult)
    (mirrorReadable : Bool) (resultsMirror : List VerifiedResult) :
    List VerifiedResult × Bool :=
  let bestNormal := headScore resultsNormal
  if 15 ≤ bestNormal then (resultsNormal.take 5, false)
  else if ¬ mirrorReadable then (resultsNormal.take 5, false)
  else
    let bestMirror := headScore resultsMirror
    if bestNormal < bestMirror then
      ((resultsMirror.map (fun r => { r with is_mirrored := true })).take 5, true)
    else (resultsNormal.take 5, true)

/-- A transient search-result candidate as handed from the diversity
retriever to the geometric verifier: `site_id`, vector distance, and the
`spatial_score` key that is absent until verification attaches it. -/
structure Candidate where
  site_id : ℤ
  distance : ℚ
  spatial_score : Option ℕ
deriving DecidableEq

/-- `c.get('spatial_score', 0)`. -/
def scoreVal (c : Candidate) : ℕ := c.spatial_score.getD 0

/-- Descending-score ordering used by the reranker
(`sorted(..., key=spatial_score, reverse=True)`). -/
def scoreGe (a b : Candidate) : Prop := scoreVal b ≤ scoreVal a

instance : DecidableRel scoreGe := fun a b => by
  unfold scoreGe; infer_instance

instance : IsTotal Candidate scoreGe := by
  constructor
  intro a b
  rcases Nat.le_total (scoreVal a) (scoreVal b) with h | h
  · exact Or.inr h
  · exact Or.inl h

instance : IsTrans Candidate scoreGe := by
  constructor
  intro a b c hab hbc
  exact hbc.trans hab

/-- Modelled from the spec: `rerank_results_with_spatial_verification` is
imported from `image_processing` by `backend/turtle_manager.py` and by
both spatial-verification test suites, but its definition is absent from
the sources; this model follows spec §4.6.  `queryHasDescriptors` is
false when extraction on the query found nothing (fail open: the input
list is returned unmodified); otherwise each candidate receives a
`spatial_score` from the matching/RANSAC stage — modelled by the `verify`
parameter, which yields `0` for a candidate with missing cached
descriptors, fewer than 4 ratio-test matches, or a failed homography
(the spec's "keep with score 0" resolution) — and the list is re-sorted
descending by that score. -/
def rerank_results_with_spatial_verification (queryHasDescriptors : Bool)
    (verify : Candidate → ℕ) (initialResults : List Candidate) : List Candidate :=
  if initialResults.isEmpty then []
  else if ¬ queryHasDescriptors then initialResults
  else
    (initialResults.map (fun c => { c with spatial_score := some (verify c) })).insertionSort
      scoreGe

/-- A deserialized vocabulary object.  `fitted` models
`hasattr(kmeans, 'cluster_centers_')`: whether the loaded estimator
actually carries trained centroids.  Any successfully deserialized
object — fitted or not — is truthy in the Python sources. -/
structure Vocab where
  fitted : Bool
deriving DecidableEq

/-- The three persisted artifacts on disk at startup, each `none` when
its file is missing or unreadable.  The index payload is its vector
count. -/
structure DiskState where
  vocabFile : Option Vocab
  indexFile : Option ℕ
  metadataFile : Option (List MetaRec)
deriving DecidableEq

/-- The in-memory `GLOBAL_RESOURCES` after startup.  `load_metadata`
returns `[]` when the file is missing, so the metadata slot is a bare
list. -/
structure Resources where
  vocab : Option Vocab
  index : Option ℕ
  metadata : List MetaRec
deriving DecidableEq

/-- Result of the startup routine: the loaded resources plus whether the
full corpus-walk rebuild was invoked. -/
structure LoadOutcome where
  resources : Resources
  rebuilt : Bool
deriving DecidableEq

/-- `rebuild_faiss_index_from_folders`
(`backend/turtles/image_processing.py` lines 267–372), artifact-level
view.  The vocabulary health check of lines 300–315: an existing
vocabulary is reused only if it is fitted, otherwise incremental
retraining runs (its output enters as the `retrained` parameter, as do
the index and metadata the corpus walk regenerates). -/
def rebuild_faiss_index_from_folders (disk : DiskState) (retrained : Vocab)
    (rebuiltIndex : ℕ) (rebuiltMetadata : List MetaRec) : DiskState :=
  let vocab :=
    match disk.vocabFile with
    | some v => if v.fitted then some v else some retrained
    | none => some retrained
  { vocabFile := vocab, indexFile := some rebuiltIndex,
    metadataFile := some rebuiltMetadata }

/-- `load_or_generate_persistent_data`
(`backend/turtles/image_processing.py` lines 142–159): load the three
artifacts; if `GLOBAL_RESOURCES['vocab'] and GLOBAL_RESOURCES['faiss_index']`
— i.e. both deserialized to (truthy) objects, whatever their content —
accept them; otherwise run the rebuild and reload.  The metadata slot is
not part of the test, and no fitted check runs on this path. -/
def load_or_generate_persistent_data (disk : DiskState) (retrained : Vocab)
    (rebuiltIndex : ℕ) (rebuiltMetadata : List MetaRec) : LoadOutcome :=
  let vocab := disk.vocabFile
  let index := disk.indexFile
  let metadata := disk.metadataFile.getD []
  if vocab.isSome ∧ index.isSome then
    { resources := { vocab := vocab, index := index, metadata := metadata },
      rebuilt := false }
  else
    let disk2 := rebuild_faiss_index_from_folders disk retrained rebuiltIndex rebuiltMetadata
    { resources :=
        { vocab := disk2.vocabFile, index := disk2.indexFile,
          metadata := disk2.metadataFile.getD [] },
      rebuilt := true }

/-- The metadata map built by `generate_clustering_and_index`
(`backend/image_processing.py` lines 514–522): record `i` pairs the
`i`-th valid file (its name and original position) with
`site_id = int(site_labels[i])`, the DBSCAN label — `-1` for every noise
point (`run_initial_dbscan`, `backend/turtles/search_utils.py` lines
8–31, per sklearn's convention stated in its docstring).  These records
carry no location key; readers substitute `'Unknown'`. -/
def buildFinalMetadata (valid : List (String × ℕ)) (labels : List ℤ) : List MetaRec :=
  (valid.zip labels).map
    (fun p =>
      { filename := p.1.1, original_index := p.1.2,
        site_id := p.2, location := "Unknown" })

theorem signedSqrt_eq_zero_iff (x : ℝ) : signedSqrt x = 0 ↔ x = 0 := by
  unfold signedSqrt
  constructor
  · intro h
    rcases mul_eq_zero.mp h with h1 | h1
    · exact Real.sign_eq_zero_iff.mp h1
    · exact abs_eq_zero.mp ((Real.sqrt_eq_zero (abs_nonneg x)).mp h1)
  · rintro rfl
    simp [Real.sign_zero]

theorem euclNormVlad_normalize {K D : ℕ} (v : Fin K → Fin D → ℝ)
    (h : 0 < ∑ i : Fin K, ∑ j : Fin D, v i j ^ 2) :
    euclNormVlad (fun i j => v i j / euclNormVlad v) = 1 := by
  have hs : euclNormVlad v ^ 2 = ∑ i : Fin K, ∑ j : Fin D, v i j ^ 2 :=
    Real.sq_sqrt h.le
  have hsum : (∑ i : Fin K, ∑ j : Fin D, (v i j / euclNormVlad v) ^ 2)
      = (∑ i : Fin K, ∑ j : Fin D, v i j ^ 2) / euclNormVlad v ^ 2 := by
    rw [Finset.sum_div]
    refine Finset.sum_congr rfl fun i _ => ?_
    rw [Finset.sum_div]
    exact Finset.sum_congr rfl fun j _ => div_pow _ _ _
  show Real.sqrt (∑ i : Fin K, ∑ j : Fin D, (v i j / euclNormVlad v) ^ 2) = 1
  rw [hsum, hs, div_self (ne_of_gt h), Real.sqrt_one]

/-- C1: for every descriptor set and trained vocabulary whose aggregated
residual matrix is not identically zero, `compute_vlad` returns a vector
of L2 norm exactly 1 (so in particular within the stated `1e-3`
tolerance), and — being a pure function of the descriptor set and the
codebook — it is deterministic. -/
theorem C1_compute_vlad_unit_norm {K D : ℕ} [NeZero K]
    (centers : Fin K → Vec D) (descriptors : List (Vec D))
    (hnd : ∃ i j, vladRaw centers descriptors i j ≠ 0) :
    euclNormVlad (compute_vlad centers descriptors) = 1 ∧
    |euclNormVlad (compute_vlad centers descriptors) - 1| ≤ 1 / 1000 ∧
    compute_vlad centers descriptors = compute_vlad centers descriptors := by
  obtain ⟨i0, j0, h0⟩ := hnd
  have hp0 : vladPower centers descriptors i0 j0 ≠ 0 := by
    intro h
    have := (signedSqrt_eq_zero_iff _).mp h
    exact h0 (by exact_mod_cast this)
  have hS : 0 < ∑ i : Fin K, ∑ j : Fin D, vladPower centers descriptors i j ^ 2 := by
    refine Finset.sum_pos' (fun i _ => Finset.sum_nonneg fun j _ => sq_nonneg _) ?_
    exact ⟨i0, Finset.mem_univ _,
      Finset.sum_pos' (fun j _ => sq_nonneg _)
        ⟨j0, Finset.mem_univ _, pow_two_pos_of_ne_zero hp0⟩⟩
  have h1 : euclNormVlad (compute_vlad centers descriptors) = 1 :=
    euclNormVlad_normalize (vladPower centers descriptors) hS
  refine ⟨h1, ?_, rfl⟩
  rw [h1]
  norm_num

/-- Concrete instance of C1: one centroid at the origin, one descriptor
at `2`; the aggregated residual is `2 ≠ 0` and the encoded vector has
unit norm. -/
theorem C1_witness :
    (∃ i j, vladRaw (K := 1) (D := 1) (fun _ _ => 0) [fun _ => 2] i j ≠ 0) ∧
    euclNormVlad (compute_vlad (K := 1) (D := 1) (fun _ _ => 0) [fun _ => 2]) = 1 := by
  have ha : ∀ x : Vec 1, assign (K := 1) (fun _ _ => 0) x = 0 :=
    fun x => Subsingleton.elim _ _
  have h : ∃ i j, vladRaw (K := 1) (D := 1) (fun _ _ => 0) [fun _ => 2] i j ≠ 0 := by
    refine ⟨0, 0, ?_⟩
    norm_num [vladRaw, ha, List.filter]
  exact ⟨h, (C1_compute_vlad_unit_norm _ _ h).1⟩

/-- C8: for a non-empty descriptor set in which every descriptor
coincides with its assigned centroid, every aggregated residual is zero,
so the L2 norm `compute_vlad` divides by is `0`: the final normalization
is an unguarded `0 / 0` in every coordinate (`NaN` in IEEE arithmetic;
the zero vector in this real-valued model) and the result is in
particular not a unit vector. -/
theorem C8_all_zero_residuals_divide_by_zero {K D : ℕ} [NeZero K]
    (centers : Fin K → Vec D) (descriptors : List (Vec D))
    (hne : descriptors ≠ [])
    (hfit : ∀ x ∈ descriptors, ∀ j, centers (assign centers x) j = x j) :
    (∀ i j, vladRaw centers descriptors i j = 0) ∧
    euclNormVlad (vladPower centers descriptors) = 0 ∧
    (∀ i j, compute_vlad centers descriptors i j
      = vladPower centers descriptors i j / 0) ∧
    euclNormVlad (compute_vlad centers descriptors) ≠ 1 := by
  have hraw : ∀ i j, vladRaw centers descriptors i j = 0 := by
    intro i j
    apply List.sum_eq_zero
    intro y hy
    obtain ⟨x, hx, rfl⟩ := List.mem_map.mp hy
    have hx2 := List.mem_filter.mp hx
    have hass : assign centers x = i := by
      have := hx2.2
      simpa using this
    have := hfit x hx2.1 j
    rw [hass] at this
    rw [this]
    ring
  have hpow : ∀ i j, vladPower centers descriptors i j = 0 := by
    intro i j
    unfold vladPower
    rw [(signedSqrt_eq_zero_iff _).mpr]
    exact_mod_cast hraw i j
  have hnorm : euclNormVlad (vladPower centers descriptors) = 0 := by
    unfold euclNormVlad
    simp [hpow]
  have hcv : ∀ i j, compute_vlad centers descriptors i j
      = vladPower centers descriptors i j / 0 := by
    intro i j
    show vladPower centers descriptors i j / euclNormVlad (vladPower centers descriptors)
      = vladPower centers descriptors i j / 0
    rw [hnorm]
  have hzero : ∀ i j, compute_vlad centers descriptors i j = 0 := by
    intro i j
    rw [hcv i j, hpow i j]
    exact zero_div _
  refine ⟨hraw, hnorm, hcv, ?_⟩
  have : euclNormVlad (compute_vlad centers descriptors) = 0 := by
    unfold euclNormVlad
    simp [hzero]
  rw [this]
  norm_num

/-- Concrete instance of C8: one centroid at the origin and the single
descriptor equal to it; the norm used as the divisor of the final
normalization is `0`. -/
theorem C8_witness :
    ([(fun _ => 0 : Vec 1)] ≠ ([] : List (Vec 1))) ∧
    (∀ x ∈ [(fun _ => 0 : Vec 1)], ∀ j,
      (fun _ _ => 0 : Fin 1 → Vec 1) (assign (K := 1) (fun _ _ => 0) x) j = x j) ∧
    euclNormVlad (vladPower (K := 1) (D := 1) (fun _ _ => 0) [fun _ => 0]) = 0 := by
  have h1 : ([(fun _ => 0 : Vec 1)] ≠ ([] : List (Vec 1))) := by simp
  have h2 : ∀ x ∈ [(fun _ => 0 : Vec 1)], ∀ j,
      (fun _ _ => 0 : Fin 1 → Vec 1) (assign (K := 1) (fun _ _ => 0) x) j = x j := by
    intro x hx j
    rw [List.mem_singleton.mp hx]
  exact ⟨h1, h2,
    (C8_all_zero_residuals_divide_by_zero (K := 1) (D := 1)
      (fun _ _ => 0) [fun _ => 0] h1 h2).2.1⟩

/-- C2 counterexample: a one-dimensional index holding the origin, and a
new vector at true L2 distance `1/100000` from it (its squared distance
is `(1/100000) * (1/100000)`).  That L2 distance is not below the
epsilon `1e-9`, so by the claim the insert must succeed — but FAISS
reports the squared distance `1e-10 < 1e-9`, so the code rejects the
insert as a duplicate and the index size stays `1`. -/
theorem C2_counterexample :
    sqDist (D := 1) (fun _ => 1 / 100000) (fun _ => 0) = (1 / 100000) * (1 / 100000) ∧
    ¬ ((1 / 100000 : ℚ) < 1 / 1000000000) ∧
    (add_new_turtle_image_to_index (D := 1) [fun _ => 0] (fun _ => 1 / 100000)).1 = false ∧
    (add_new_turtle_image_to_index (D := 1) [fun _ => 0] (fun _ => 1 / 100000)).2.length = 1 := by
  refine ⟨?_, by norm_num, ?_, ?_⟩ <;>
    norm_num [add_new_turtle_image_to_index, searchK1, enumIdx, sqDist, Fin.sum_univ_one]

/-- C2 (amended): `add_new_turtle_image_to_index` rejects the insert
(returns `False`, index unchanged) exactly when the nearest neighbor's
**squared** L2 distance — the value FAISS reports for `METRIC_L2` — is
below `1e-9`; otherwise the insert succeeds and the index grows by
exactly one. -/
theorem C2_add_duplicate_policy {D : ℕ} (db : List (Vec D)) (v : Vec D)
    (i : ℕ) (d : ℚ) (h : searchK1 db v = some (i, d)) :
    (d < 1 / 1000000000 →
      add_new_turtle_image_to_index db v = (false, db)) ∧
    (¬ d < 1 / 1000000000 →
      add_new_turtle_image_to_index db v = (true, db ++ [v]) ∧
      (add_new_turtle_image_to_index db v).2.length = db.length + 1) := by
  constructor
  · intro hlt
    unfold add_new_turtle_image_to_index
    rw [h]
    show (if d < 1 / 1000000000 then ((false : Bool), db)
      else ((true : Bool), db ++ [v])) = (false, db)
    rw [if_pos hlt]
  · intro hge
    have he : add_new_turtle_image_to_index db v = (true, db ++ [v]) := by
      unfold add_new_turtle_image_to_index
      rw [h]
      show (if d < 1 / 1000000000 then ((false : Bool), db)
        else ((true : Bool), db ++ [v])) = (true, db ++ [v])
      rw [if_neg hge]
    refine ⟨he, ?_⟩
    rw [he]
    simp

/-- Concrete instance of C2 (amended): inserting a far-away vector
(nearest squared distance `1`) succeeds and grows the index from one to
two entries. -/
theorem C2_witness :
    (add_new_turtle_image_to_index (D := 1) [fun _ => 0] (fun _ => 1)).1 = true ∧
    (add_new_turtle_image_to_index (D := 1) [fun _ => 0] (fun _ => 1)).2.length = 1 + 1 := by
  have hs : searchK1 (D := 1) [fun _ => 0] (fun _ => 1) = some (0, 1) := by
    norm_num [searchK1, enumIdx, sqDist, Fin.sum_univ_one]
  have h := (C2_add_duplicate_policy (D := 1) [fun _ => 0] (fun _ => 1) 0 1 hs).2
    (by norm_num)
  exact ⟨by rw [h.1], h.2⟩

/-- C3: registering an upload whose encoded vector duplicates an index
entry breaks the index/metadata lockstep.  Starting from an aligned
state (one vector, one record), `register_new_site_from_upload` lets
`add_new_turtle_image_to_index` reject the vector (the index stays at
one entry) but appends the metadata record anyway: afterwards the index
holds 1 vector while the metadata holds 2 records, and the new record's
`original_index` (`ntotal - 1 = 0`) points at the vector of the
pre-existing record. -/
theorem C3_register_duplicate_breaks_lockstep :
    ([(fun _ => 0 : Vec 1)].length
      = [({ filename := "t1.jpg", site_id := 1, location := "L",
            original_index := 0 } : MetaRec)].length) ∧
    (register_new_site_from_upload (D := 1) [fun _ => 0]
        [{ filename := "t1.jpg", site_id := 1, location := "L", original_index := 0 }]
        (fun _ => 0) "t2.jpg" "L").1.length = 1 ∧
    (register_new_site_from_upload (D := 1) [fun _ => 0]
        [{ filename := "t1.jpg", site_id := 1, location := "L", original_index := 0 }]
        (fun _ => 0) "t2.jpg" "L").2
      = [{ filename := "t1.jpg", site_id := 1, location := "L", original_index := 0 },
         { filename := "t2.jpg", site_id := 2, location := "L", original_index := 0 }] ∧
    (register_new_site_from_upload (D := 1) [fun _ => 0]
        [{ filename := "t1.jpg", site_id := 1, location := "L", original_index := 0 }]
        (fun _ => 0) "t2.jpg" "L").1.length
      ≠ (register_new_site_from_upload (D := 1) [fun _ => 0]
        [{ filename := "t1.jpg", site_id := 1, location := "L", original_index := 0 }]
        (fun _ => 0) "t2.jpg" "L").2.length := by
  refine ⟨by simp, ?_, ?_, ?_⟩ <;>
    norm_num [register_new_site_from_upload, add_new_turtle_image_to_index,
      searchK1, enumIdx, sqDist, newSiteId, Fin.sum_univ_one]

theorem collectUnique_mem (metadata : List MetaRec) (k : ℕ) :
    ∀ (ns : List (ℕ × ℚ)) (seen : List ℤ) (count : ℕ) (r : ResultRec),
      r ∈ collectUnique metadata k ns seen count →
      (∃ p ∈ ns, r.distance = p.2) ∧ r.site_id ∉ seen := by
  intro ns
  induction ns with
  | nil =>
    intro seen count r hr
    simp [collectUnique] at hr
  | cons hd tl ih =>
    intro seen count r hr
    obtain ⟨idx, dist⟩ := hd
    simp only [collectUnique] at hr
    by_cases hidx : idx < metadata.length
    · rw [dif_pos hidx] at hr
      by_cases hseen : (metadata.get ⟨idx, hidx⟩).site_id ∈ seen
      · rw [if_pos hseen] at hr
        by_cases hk : k ≤ count
        · rw [if_pos hk] at hr
          simp at hr
        · rw [if_neg hk] at hr
          obtain ⟨⟨p, hp, hd2⟩, hns⟩ := ih seen count r hr
          exact ⟨⟨p, List.mem_cons_of_mem _ hp, hd2⟩, hns⟩
      · rw [if_neg hseen] at hr
        by_cases hk : k ≤ count + 1
        · rw [if_pos hk] at hr
          rw [List.mem_singleton] at hr
          subst hr
          exact ⟨⟨(idx, dist), List.mem_cons_self _ _, rfl⟩, hseen⟩
        · rw [if_neg hk] at hr
          rcases List.mem_cons.mp hr with rfl | hr2
          · exact ⟨⟨(idx, dist), List.mem_cons_self _ _, rfl⟩, hseen⟩
          · obtain ⟨⟨p, hp, hd2⟩, hns⟩ := ih _ _ r hr2
            exact ⟨⟨p, List.mem_cons_of_mem _ hp, hd2⟩,
              fun hc => hns (List.mem_cons_of_mem _ hc)⟩
    · rw [dif_neg hidx] at hr
      obtain ⟨⟨p, hp, hd2⟩, hns⟩ := ih seen count r hr
      exact ⟨⟨p, List.mem_cons_of_mem _ hp, hd2⟩, hns⟩

theorem collectUnique_pairwise (metadata : List MetaRec) (k : ℕ) :
    ∀ (ns : List (ℕ × ℚ)) (seen : List ℤ) (count : ℕ),
      List.Pairwise (fun a b => a.site_id ≠ b.site_id)
        (collectUnique metadata k ns seen count) := by
  intro ns
  induction ns with
  | nil =>
    intro seen count
    simp [collectUnique]
  | cons hd tl ih =>
    intro seen count
    obtain ⟨idx, dist⟩ := hd
    simp only [collectUnique]
    by_cases hidx : idx < metadata.length
    · rw [dif_pos hidx]
      by_cases hseen : (metadata.get ⟨idx, hidx⟩).site_id ∈ seen
      · rw [if_pos hseen]
        by_cases hk : k ≤ count
        · rw [if_pos hk]
          exact List.Pairwise.nil
        · rw [if_neg hk]
          exact ih seen count
      · rw [if_neg hseen]
        by_cases hk : k ≤ count + 1
        · rw [if_pos hk]
          exact List.pairwise_singleton _ _
        · rw [if_neg hk]
          refine List.pairwise_cons.mpr ⟨?_, ih _ _⟩
          intro b hb hEq
          have hns := (collectUnique_mem metadata k tl _ _ b hb).2
          exact hns (hEq ▸ List.mem_cons_self _ _)
    · rw [dif_neg hidx]
      exact ih seen count

theorem collectUnique_sorted (metadata : List MetaRec) (k : ℕ) :
    ∀ (ns : List (ℕ × ℚ)) (seen : List ℤ) (count : ℕ),
      List.Sorted (· ≤ ·) (ns.map Prod.snd) →
      List.Sorted (· ≤ ·)
        ((collectUnique metadata k ns seen count).map (fun r => r.distance)) := by
  intro ns
  induction ns with
  | nil =>
    intro seen count _
    simp [collectUnique]
  | cons hd tl ih =>
    intro seen count hs
    obtain ⟨idx, dist⟩ := hd
    rw [List.map_cons, List.sorted_cons] at hs
    obtain ⟨hle, hstl⟩ := hs
    simp only [collectUnique]
    by_cases hidx : idx < metadata.length
    · rw [dif_pos hidx]
      by_cases hseen : (metadata.get ⟨idx, hidx⟩).site_id ∈ seen
      · rw [if_pos hseen]
        by_cases hk : k ≤ count
        · rw [if_pos hk]
          simp
        · rw [if_neg hk]
          exact ih seen count hstl
      · rw [if_neg hseen]
        by_cases hk : k ≤ count + 1
        · rw [if_pos hk]
          simp
        · rw [if_neg hk]
          rw [List.map_cons, List.sorted_cons]
          refine ⟨?_, ih _ _ hstl⟩
          intro b hb
          obtain ⟨r2, hr2, rfl⟩ := List.mem_map.mp hb
          obtain ⟨⟨p, hp, hpd⟩, _⟩ := collectUnique_mem metadata k tl _ _ r2 hr2
          rw [hpd]
          exact hle p.2 (List.mem_map.mpr ⟨p, hp, rfl⟩)
    · rw [dif_neg hidx]
      exact ih seen count hstl

theorem collectUnique_length (metadata : List MetaRec) (k : ℕ) :
    ∀ (ns : List (ℕ × ℚ)) (seen : List ℤ) (count : ℕ), count < k →
      (collectUnique metadata k ns seen count).length ≤ k - count := by
  intro ns
  induction ns with
  | nil =>
    intro seen count _
    simp [collectUnique]
  | cons hd tl ih =>
    intro seen count hcount
    obtain ⟨idx, dist⟩ := hd
    simp only [collectUnique]
    by_cases hidx : idx < metadata.length
    · rw [dif_pos hidx]
      by_cases hseen : (metadata.get ⟨idx, hidx⟩).site_id ∈ seen
      · rw [if_pos hseen, if_neg (Nat.not_le.mpr hcount)]
        exact ih seen count hcount
      · rw [if_neg hseen]
        by_cases hk : k ≤ count + 1
        · rw [if_pos hk]
          simp only [List.length_singleton]
          omega
        · rw [if_neg hk]
          have := ih ((metadata.get ⟨idx, hidx⟩).site_id :: seen) (count + 1)
            (by omega)
          simp only [List.length_cons]
          omega
    · rw [dif_neg hidx]
      exact ih seen count hcount

theorem searchTopK_map_snd_sorted {D : ℕ} (db : List (Vec D)) (q : Vec D) (k : ℕ) :
    List.Sorted (· ≤ ·) ((searchTopK db q k).map Prod.snd) := by
  have h1 : List.Sorted hitLE
      (((enumIdx db 0).map (fun p => (p.1, sqDist q p.2))).insertionSort hitLE) :=
    List.sorted_insertionSort hitLE _
  have h2 : List.Sorted hitLE (searchTopK db q k) :=
    List.Pairwise.sublist (List.take_sublist _ _) h1
  exact List.pairwise_map.mpr
    (h2.imp fun hab => hab.elim le_of_lt (fun hx => le_of_eq hx.1))

/-- C4: for every database, metadata array, query and `k`, the global
diversity search returns at most `k` results, with pairwise-distinct
`site_id`s (at most one candidate per identity), and in non-decreasing
vector-distance order — the neighbor list is scanned in ascending
squared-distance order, first occurrence of each site kept, stopping at
`k` unique identities or exhaustion. -/
theorem C4_smart_search_diversity {D : ℕ} (db : List (Vec D))
    (metadata : List MetaRec) (q : Vec D) (kResults : ℕ) :
    (smart_search_global db metadata q kResults).length ≤ kResults ∧
    List.Pairwise (fun a b => a.site_id ≠ b.site_id)
      (smart_search_global db metadata q kResults) ∧
    List.Sorted (· ≤ ·)
      ((smart_search_global db metadata q kResults).map (fun r => r.distance)) := by
  refine ⟨?_, collectUnique_pairwise _ _ _ _ _,
    collectUnique_sorted _ _ _ _ _ (searchTopK_map_snd_sorted _ _ _)⟩
  unfold smart_search_global
  rcases Nat.eq_zero_or_pos kResults with h0 | hpos
  · subst h0
    simp [searchTopK, collectUnique]
  · have := collectUnique_length metadata kResults
      (searchTopK db q (kResults * 10)) [] 0 hpos
    omega

/-- C9 counterexample: a one-entry subset holding the origin and a query
at true L2 distance `1/10000` from it (squared distance
`(1/10000) * (1/10000)`).  That L2 distance is not below `1e-6`, so by
the claim the entry must be kept — but the code compares the squared
distance `1e-8 < 1e-6` and removes it: the filtered search returns
nothing. -/
theorem C9_counterexample :
    sqDist (D := 1) (fun _ => 1 / 10000) (fun _ => 0) = (1 / 10000) * (1 / 10000) ∧
    ¬ ((1 / 10000 : ℚ) < 1 / 1000000) ∧
    filtered_faiss_search (D := 1) (fun _ => 1 / 10000) [fun _ => 0] [7] 5 = ([], []) := by
  refine ⟨?_, by norm_num, ?_⟩ <;>
    norm_num [filtered_faiss_search, searchTopK, enumIdx, sqDist, Fin.sum_univ_one,
      List.insertionSort, List.orderedInsert, List.filter]

/-- C9 (amended): every distance the location-filtered search returns is
at least `1e-6` as a **squared** L2 distance (i.e. the subset entries
removed are those within L2 distance `1e-3` of the query, which includes
every exact copy at distance `0`); the global search path applies no
such exclusion — querying a one-entry database with its own stored
vector returns that entry at distance `0`. -/
theorem C9_filtered_self_exclusion :
    (∀ (D : ℕ) (q : Vec D) (sv : List (Vec D)) (si : List ℕ) (n : ℕ),
      ((filtered_faiss_search q sv si n).2).Forall (fun d => 1 / 1000000 ≤ d)) ∧
    smart_search_global (D := 1) [fun _ => 0]
      [{ filename := "a.npz", site_id := 4, location := "Unknown", original_index := 0 }]
      (fun _ => 0) 5
      = [{ filename := "a.npz", site_id := 4, distance := 0, location := "Unknown" }] := by
  constructor
  · intro D q sv si n
    rw [List.forall_iff_forall_mem]
    intro d hd
    unfold filtered_faiss_search at hd
    by_cases he : sv.isEmpty
    · rw [if_pos he] at hd
      simp at hd
    · rw [if_neg he] at hd
      simp only at hd
      obtain ⟨p, hp, rfl⟩ := List.mem_map.mp hd
      have hf := (List.mem_filter.mp hp).2
      simp only [Bool.not_eq_eq_eq_not, Bool.not_true, decide_eq_false_iff_not] at hf
      exact le_of_not_lt hf
  · norm_num [smart_search_global, collectUnique, searchTopK, enumIdx, sqDist,
      Fin.sum_univ_one, List.insertionSort, List.orderedInsert]

theorem pairwise_ne_countP_le_one (c : ℤ) :
    ∀ l : List ResultRec,
      List.Pairwise (fun a b => a.site_id ≠ b.site_id) l →
      l.countP (fun r => decide (r.site_id = c)) ≤ 1 := by
  intro l
  induction l with
  | nil =>
    intro _
    simp
  | cons a l ih =>
    intro hp
    rw [List.pairwise_cons] at hp
    rw [List.countP_cons]
    by_cases hc : a.site_id = c
    · have h0 : l.countP (fun r => decide (r.site_id = c)) = 0 := by
        rw [List.countP_eq_zero]
        intro b hb
        simp only [decide_eq_true_eq]
        intro hbc
        exact hp.1 b hb (by rw [hc, hbc])
      simp [h0, hc]
    · simpa [hc] using ih hp.2

/-- C10: the bootstrap metadata assigns record `i` the DBSCAN label of
vector `i` — so every noise vector receives the same `site_id = -1` —
and the diversity search deduplicates on `site_id`, so any result list
of the global search contains at most one entry whose `site_id` is the
shared noise label `-1`: the entire noise set behaves as a single merged
identity. -/
theorem C10_noise_sites_merged (valid : List (String × ℕ)) (labels : List ℤ)
    {D : ℕ} (db : List (Vec D)) (q : Vec D) (k : ℕ) :
    (∀ i, i < valid.length → i < labels.length →
      ((buildFinalMetadata valid labels).getD i default).site_id = labels.getD i 0) ∧
    (smart_search_global db (buildFinalMetadata valid labels) q k).countP
      (fun r => decide (r.site_id = -1)) ≤ 1 := by
  constructor
  · intro i h1 h2
    have hlen : i < (buildFinalMetadata valid labels).length := by
      unfold buildFinalMetadata
      rw [List.length_map, List.length_zip]
      omega
    have hzip : i < (valid.zip labels).length := by
      rw [List.length_zip]
      omega
    rw [List.getD_eq_getElem _ _ hlen, List.getD_eq_getElem _ _ h2]
    unfold buildFinalMetadata
    rw [List.getElem_map, List.getElem_zip]
  · exact pairwise_ne_countP_le_one _ _ (collectUnique_pairwise _ _ _ _ _)

/-- Concrete instance of C10: a single noise vector (DBSCAN label `-1`)
receives `site_id = -1`, and a global search over that corpus returns at
most one noise entry. -/
theorem C10_witness :
    ((buildFinalMetadata [("n1.npz", 0)] [-1]).getD 0 default).site_id = -1 ∧
    (smart_search_global (D := 1) [fun _ => 0] (buildFinalMetadata [("n1.npz", 0)] [-1])
      (fun _ => 0) 5).countP (fun r => decide (r.site_id = -1)) ≤ 1 := by
  have h := C10_noise_sites_merged [("n1.npz", 0)] [-1] (D := 1)
    [fun _ => 0] (fun _ => 0) 5
  refine ⟨?_, h.2⟩
  have h0 := h.1 0 (by decide) (by decide)
  rw [h0]
  rfl

/-- C5: whenever the top `spatial_score` of the normal-orientation
reranked results meets or exceeds the confidence threshold `15`,
`search_for_matches` returns the top five of those results immediately
and the mirror pipeline is never invoked (the returned flag recording a
mirror search/verification run is `false`), whatever the mirror pass
would have produced. -/
theorem C5_accept_normal_skips_mirror (resultsNormal resultsMirror : List VerifiedResult)
    (mirrorReadable : Bool) (h : 15 ≤ headScore resultsNormal) :
    search_for_matches resultsNormal mirrorReadable resultsMirror
      = (resultsNormal.take 5, false) := by
  unfold search_for_matches
  rw [if_pos h]

/-- Concrete instance of C5: a top score of `20 ≥ 15`; the normal
results come back unchanged and the mirror pipeline flag is `false`,
even though the mirror pass would have scored `99`. -/
theorem C5_witness :
    15 ≤ headScore [{ site_id := 3, spatial_score := some 20, is_mirrored := false }] ∧
    search_for_matches [{ site_id := 3, spatial_score := some 20, is_mirrored := false }]
        true [{ site_id := 4, spatial_score := some 99, is_mirrored := false }]
      = ([{ site_id := 3, spatial_score := some 20, is_mirrored := false }], false) := by
  have h : 15 ≤ headScore [{ site_id := 3, spatial_score := some 20, is_mirrored := false }] := by
    norm_num [headScore]
  exact ⟨h, (C5_accept_normal_skips_mirror _ _ true h).trans rfl⟩

/-- C6 (spec-modelled — the reranker's body is absent from the
sources): for every candidate list coming out of retrieval (no
`spatial_score` attached yet), the list
`rerank_results_with_spatial_verification` returns is sorted in
non-increasing `spatial_score` order, and consequently a candidate with
score `0` (failed or skipped verification) never precedes one with a
positive score. -/
theorem C6_rerank_monotone (queryHasDescriptors : Bool) (verify : Candidate → ℕ)
    (initialResults : List Candidate)
    (h : ∀ c ∈ initialResults, c.spatial_score = none) :
    List.Sorted scoreGe
      (rerank_results_with_spatial_verification queryHasDescriptors verify initialResults) ∧
    List.Pairwise (fun a b => scoreVal a = 0 → scoreVal b = 0)
      (rerank_results_with_spatial_verification queryHasDescriptors verify initialResults) := by
  have hsorted : List.Sorted scoreGe
      (rerank_results_with_spatial_verification queryHasDescriptors verify initialResults) := by
    unfold rerank_results_with_spatial_verification
    by_cases he : initialResults.isEmpty
    · rw [if_pos he]
      exact List.Pairwise.nil
    · rw [if_neg he]
      by_cases hq : queryHasDescriptors
      · rw [if_neg (by simp [hq])]
        exact List.sorted_insertionSort scoreGe _
      · rw [if_pos (by simp [hq])]
        refine List.pairwise_of_forall_mem_list ?_
        intro a ha b hb
        show scoreVal b ≤ scoreVal a
        rw [scoreVal, scoreVal, h a ha, h b hb]
  exact ⟨hsorted, hsorted.imp fun hab h0 => Nat.le_zero.mp (h0 ▸ hab)⟩

/-- Concrete instance of C6: two fresh candidates, a verifier that
scores the first `0` and the second `5`; the reranked list is sorted
non-increasingly by score. -/
theorem C6_witness :
    (∀ c ∈ [({ site_id := 1, distance := 0, spatial_score := none } : Candidate),
            { site_id := 2, distance := 0, spatial_score := none }],
      c.spatial_score = none) ∧
    List.Sorted scoreGe
      (rerank_results_with_spatial_verification true
        (fun c => if c.site_id = 1 then 0 else 5)
        [{ site_id := 1, distance := 0, spatial_score := none },
         { site_id := 2, distance := 0, spatial_score := none }]) := by
  have h : ∀ c ∈ [({ site_id := 1, distance := 0, spatial_score := none } : Candidate),
      { site_id := 2, distance := 0, spatial_score := none }], c.spatial_score = none := by
    intro c hc
    rcases List.mem_cons.mp hc with rfl | hc2
    · rfl
    · rw [List.mem_singleton.mp hc2]
  exact ⟨h, (C6_rerank_monotone true _ _ h).1⟩

/-- C7 counterexample: at startup the vocabulary file deserializes to an
unfitted estimator (no `cluster_centers_`), the index file loads, and
the metadata file is missing.  The claim requires a full rebuild; the
code performs none (`rebuilt = false`), keeps the unfitted vocabulary
for encoding, and serves with an empty metadata array. -/
theorem C7_counterexample :
    (load_or_generate_persistent_data
        { vocabFile := some { fitted := false }, indexFile := some 3,
          metadataFile := none }
        { fitted := true } 0 []).rebuilt = false ∧
    (load_or_generate_persistent_data
        { vocabFile := some { fitted := false }, indexFile := some 3,
          metadataFile := none }
        { fitted := true } 0 []).resources.vocab = some { fitted := false } ∧
    (load_or_generate_persistent_data
        { vocabFile := some { fitted := false }, indexFile := some 3,
          metadataFile := none }
        { fitted := true } 0 []).resources.metadata = [] := by
  decide

/-- C7 (amended): the startup routine triggers the full corpus-walk
rebuild exactly when the vocabulary file or the index file fails to
load; when both load, they are accepted as-is — a missing metadata array
is served as `[]`, and a loaded-but-unfitted vocabulary passes the check
and is kept for encoding (the fitted-centroids check runs only inside
the rebuild routine itself). -/
theorem C7_rebuild_trigger (disk : DiskState) (retrained : Vocab)
    (ri : ℕ) (rm : List MetaRec) :
    ((load_or_generate_persistent_data disk retrained ri rm).rebuilt
      = (disk.vocabFile.isNone || disk.indexFile.isNone)) ∧
    (disk.vocabFile.isSome → disk.indexFile.isSome →
      (load_or_generate_persistent_data disk retrained ri rm).resources
        = { vocab := disk.vocabFile, index := disk.indexFile,
            metadata := disk.metadataFile.getD [] }) ∧
    (disk.vocabFile.isNone ∨ disk.indexFile.isNone →
      (load_or_generate_persistent_data disk retrained ri rm).resources.index = some ri ∧
      (load_or_generate_persistent_data disk retrained ri rm).resources.metadata = rm) := by
  unfold load_or_generate_persistent_data rebuild_faiss_index_from_folders
  rcases hv : disk.vocabFile with _ | v <;> rcases hx : disk.indexFile with _ | x <;>
    simp [hv, hx]

/-- Concrete instance of C7 (amended): both artifacts load (a fitted
vocabulary and an index), so no rebuild runs and the loaded resources
are served unchanged. -/
theorem C7_witness :
    (load_or_generate_persistent_data
        { vocabFile := some { fitted := true }, indexFile := some 2,
          metadataFile := some [] }
        { fitted := true } 0 []).rebuilt = false ∧
    (load_or_generate_persistent_data
        { vocabFile := some { fitted := true }, indexFile := some 2,
          metadataFile := some [] }
        { fitted := true } 0 []).resources
      = { vocab := some { fitted := true }, index := some 2, metadata := [] } := by
  have h := C7_rebuild_trigger
    { vocabFile := some { fitted := true }, indexFile := some 2, metadataFile := some [] }
    { fitted := true } 0 []
  exact ⟨h.1.trans rfl, (h.2.1 (by decide) (by decide)).trans rfl⟩
